import Mathlib

/-!
# Symphony Local — verification of the spectrogram/waterfall core

Shallow embedding of the audio-visualization client: the colormap
generator, the live waterfall renderer, the calibration sweep controller
and the snapshot exporter (all from `src/unnamed/part_000`, the main
player component), and the local-file scanner
(`src/services/localService.ts`), together with theorems checking the
specification's claims against them.

JavaScript numbers are embedded as `ℚ` (every value occurring in this
code is exact in binary floating point at the scales involved, and the
claims are about exact arithmetic identities), `Math.floor` as `Int.floor`
and `Math.round` as `⌊x + 1/2⌋`, which is how ECMAScript defines it
(round half toward positive infinity).
-/

namespace Symphony

/-- The configured maximum displayed frequency in Hz (`FREQ_MAX` in
`src/unnamed/part_000`). -/
def FREQ_MAX : ℕ := 12000

/-- JavaScript's `Math.round`: round half toward positive infinity,
i.e. `⌊x + 1/2⌋` (ECMAScript §21.3.2.28). -/
def jsRound (x : ℚ) : ℤ := ⌊x + 1 / 2⌋

/-! ## Colormap generator (`generateBirdSongColormap`) -/

/-- One keyframe of the colormap gradient: a stop at a position in `[0,1]`
with an RGB color.  The source stores a fourth alpha component that the
generator never reads, so it is omitted. -/
structure KeyPoint where
  pos : ℚ
  r : ℤ
  g : ℤ
  b : ℤ
deriving DecidableEq

/-- Keyframe `{pos: 0.0, color: [0, 0, 0, 1]}`. -/
def kp0 : KeyPoint := ⟨0, 0, 0, 0⟩

/-- Keyframe `{pos: 0.15, color: [20, 0, 60, 1]}`. -/
def kp1 : KeyPoint := ⟨3 / 20, 20, 0, 60⟩

/-- Keyframe `{pos: 0.4, color: [140, 0, 160, 1]}`. -/
def kp2 : KeyPoint := ⟨2 / 5, 140, 0, 160⟩

/-- Keyframe `{pos: 0.7, color: [255, 100, 0, 1]}`. -/
def kp3 : KeyPoint := ⟨7 / 10, 255, 100, 0⟩

/-- Keyframe `{pos: 1.0, color: [255, 255, 255, 1]}`. -/
def kp4 : KeyPoint := ⟨1, 255, 255, 255⟩

/-- The five keyframes (`keyPoints`) of `generateBirdSongColormap`. -/
def keyPoints : List KeyPoint := [kp0, kp1, kp2, kp3, kp4]

/-- First adjacent keyframe pair `(start, end)` whose positions bracket
`t`, mirroring the inner `for j` loop of `generateBirdSongColormap`
together with its `break` (first match wins). -/
def findSeg (t : ℚ) : List KeyPoint → Option (KeyPoint × KeyPoint)
  | a :: b :: rest => if a.pos ≤ t ∧ t ≤ b.pos then some (a, b) else findSeg t (b :: rest)
  | _ => none

/-- One RGB entry of the colormap for table index `i`, translated from
the body of the `for i` loop of `generateBirdSongColormap`: the
magnitude fraction is `i/255`, the bracketing segment is the first
match (defaulting to the first/last keyframe when no segment matches,
exactly as the source initialises `start`/`end` before its search), and
each channel is linearly interpolated and rounded with `Math.round`.
The source guards the interpolation against a zero-width segment by
sending `rangeRatio` to `0`. -/
def colormapEntry (i : ℕ) : ℤ × ℤ × ℤ :=
  let t : ℚ := i / 255
  let s := (findSeg t keyPoints).elim kp0 Prod.fst
  let e := (findSeg t keyPoints).elim kp4 Prod.snd
  let range := e.pos - s.pos
  let f := if range = 0 then 0 else (t - s.pos) / range
  (jsRound ((s.r : ℚ) + ((e.r : ℚ) - (s.r : ℚ)) * f),
   jsRound ((s.g : ℚ) + ((e.g : ℚ) - (s.g : ℚ)) * f),
   jsRound ((s.b : ℚ) + ((e.b : ℚ) - (s.b : ℚ)) * f))

/-- The 256-entry colormap table built by `generateBirdSongColormap`. -/
def generateBirdSongColormap : List (ℤ × ℤ × ℤ) :=
  (List.range 256).map colormapEntry

/-- Modelled from the spec (§4.1 and claim C2's reference definition):
for table index `i` take `ratio = i/255`, locate the first keyframe
interval `[start, end]` with `start.pos ≤ ratio ≤ end.pos`, and
interpolate each channel linearly, rounding to nearest; below the first
or above the last keyframe, clamp to the nearest endpoint's color. -/
def specColormapEntry (i : ℕ) : ℤ × ℤ × ℤ :=
  let t : ℚ := i / 255
  match findSeg t keyPoints with
  | some (s, e) =>
      (jsRound ((s.r : ℚ) + ((e.r : ℚ) - (s.r : ℚ)) * ((t - s.pos) / (e.pos - s.pos))),
       jsRound ((s.g : ℚ) + ((e.g : ℚ) - (s.g : ℚ)) * ((t - s.pos) / (e.pos - s.pos))),
       jsRound ((s.b : ℚ) + ((e.b : ℚ) - (s.b : ℚ)) * ((t - s.pos) / (e.pos - s.pos))))
  | none => if t < kp0.pos then (kp0.r, kp0.g, kp0.b) else (kp4.r, kp4.g, kp4.b)


/-- On `[0,1]` the keyframe search always succeeds, returns a bracketing
pair, and that pair is one of the four adjacent keyframe pairs. -/
theorem findSeg_mem (t : ℚ) (h0 : 0 ≤ t) (h1 : t ≤ 1) :
    ∃ a b, findSeg t keyPoints = some (a, b) ∧ a.pos ≤ t ∧ t ≤ b.pos ∧
      ((a, b) = (kp0, kp1) ∨ (a, b) = (kp1, kp2) ∨ (a, b) = (kp2, kp3) ∨ (a, b) = (kp3, kp4)) := by
  simp only [keyPoints, findSeg]
  split_ifs with hc1 hc2 hc3 hc4
  · exact ⟨kp0, kp1, rfl, hc1.1, hc1.2, Or.inl rfl⟩
  · exact ⟨kp1, kp2, rfl, hc2.1, hc2.2, Or.inr (Or.inl rfl)⟩
  · exact ⟨kp2, kp3, rfl, hc3.1, hc3.2, Or.inr (Or.inr (Or.inl rfl))⟩
  · exact ⟨kp3, kp4, rfl, hc4.1, hc4.2, Or.inr (Or.inr (Or.inr rfl))⟩
  · exfalso
    push_neg at hc1 hc2 hc3 hc4
    simp only [kp0, kp1, kp2, kp3, kp4] at hc1 hc2 hc3 hc4
    by_cases ht : t ≤ 3 / 20
    · exact absurd (hc1 h0) (not_lt.mpr ht)
    · push_neg at ht
      by_cases ht2 : t ≤ 2 / 5
      · exact absurd (hc2 (le_of_lt ht)) (not_lt.mpr ht2)
      · push_neg at ht2
        by_cases ht3 : t ≤ 7 / 10
        · exact absurd (hc3 (le_of_lt ht2)) (not_lt.mpr ht3)
        · push_neg at ht3
          exact absurd (hc4 (le_of_lt ht3)) (not_lt.mpr h1)

/-- Interpolated channel values stay inside `[0, 255]`. -/
theorem interp_mem (ca cb f : ℚ) (h0 : 0 ≤ f) (h1 : f ≤ 1)
    (hca : 0 ≤ ca) (hca' : ca ≤ 255) (hcb : 0 ≤ cb) (hcb' : cb ≤ 255) :
    0 ≤ ca + (cb - ca) * f ∧ ca + (cb - ca) * f ≤ 255 := by
  constructor
  · nlinarith
  · nlinarith

/-- `jsRound` maps `[0, 255]` into the integers `0..255`. -/
theorem jsRound_mem (x : ℚ) (h0 : 0 ≤ x) (h1 : x ≤ 255) :
    0 ≤ jsRound x ∧ jsRound x ≤ 255 := by
  unfold jsRound
  constructor
  · exact Int.le_floor.mpr (by push_cast; linarith)
  · have : (⌊x + 1 / 2⌋ : ℤ) < 256 := Int.floor_lt.mpr (by push_cast; linarith)
    omega



theorem colormapEntry_eq_of_seg (i : ℕ) (a b : KeyPoint)
    (hseg : findSeg ((i : ℚ) / 255) keyPoints = some (a, b)) (hr : b.pos - a.pos ≠ 0) :
    colormapEntry i =
      (jsRound ((a.r : ℚ) + ((b.r : ℚ) - (a.r : ℚ)) * (((i : ℚ) / 255 - a.pos) / (b.pos - a.pos))),
       jsRound ((a.g : ℚ) + ((b.g : ℚ) - (a.g : ℚ)) * (((i : ℚ) / 255 - a.pos) / (b.pos - a.pos))),
       jsRound ((a.b : ℚ) + ((b.b : ℚ) - (a.b : ℚ)) * (((i : ℚ) / 255 - a.pos) / (b.pos - a.pos)))) := by
  simp only [colormapEntry, hseg, Option.elim, if_neg hr]

theorem specColormapEntry_eq_of_seg (i : ℕ) (a b : KeyPoint)
    (hseg : findSeg ((i : ℚ) / 255) keyPoints = some (a, b)) :
    specColormapEntry i =
      (jsRound ((a.r : ℚ) + ((b.r : ℚ) - (a.r : ℚ)) * (((i : ℚ) / 255 - a.pos) / (b.pos - a.pos))),
       jsRound ((a.g : ℚ) + ((b.g : ℚ) - (a.g : ℚ)) * (((i : ℚ) / 255 - a.pos) / (b.pos - a.pos))),
       jsRound ((a.b : ℚ) + ((b.b : ℚ) - (a.b : ℚ)) * (((i : ℚ) / 255 - a.pos) / (b.pos - a.pos)))) := by
  simp only [specColormapEntry, hseg]

theorem colormapEntry_eq_spec (i : ℕ) (hi : i < 256) : colormapEntry i = specColormapEntry i := by
  have h255 : (i : ℚ) ≤ 255 := by exact_mod_cast Nat.le_of_lt_succ hi
  have h0 : (0 : ℚ) ≤ (i : ℚ) / 255 := by positivity
  have h1 : (i : ℚ) / 255 ≤ 1 := (div_le_one (by norm_num)).mpr h255
  obtain ⟨a, b, hseg, hat, htb, hcases⟩ := findSeg_mem _ h0 h1
  have hr : b.pos - a.pos ≠ 0 := by
    rcases hcases with h | h | h | h <;>
      (simp only [Prod.mk.injEq] at h; obtain ⟨rfl, rfl⟩ := h) <;>
      norm_num [kp0, kp1, kp2, kp3, kp4]
  rw [colormapEntry_eq_of_seg i a b hseg hr, specColormapEntry_eq_of_seg i a b hseg]

theorem chan_mem_one (ca cb t pa pb : ℚ) (hat : pa ≤ t) (htb : t ≤ pb)
    (hrpos : 0 < pb - pa) (h1 : 0 ≤ ca) (h2 : ca ≤ 255) (h3 : 0 ≤ cb) (h4 : cb ≤ 255) :
    0 ≤ jsRound (ca + (cb - ca) * ((t - pa) / (pb - pa))) ∧
      jsRound (ca + (cb - ca) * ((t - pa) / (pb - pa))) ≤ 255 := by
  have hf0 : 0 ≤ (t - pa) / (pb - pa) := div_nonneg (by linarith) hrpos.le
  have hf1 : (t - pa) / (pb - pa) ≤ 1 := (div_le_one hrpos).mpr (by linarith)
  obtain ⟨hx0, hx1⟩ := interp_mem ca cb _ hf0 hf1 h1 h2 h3 h4
  exact jsRound_mem _ hx0 hx1

theorem colormapEntry_chan_mem (i : ℕ) (hi : i < 256) :
    0 ≤ (colormapEntry i).1 ∧ (colormapEntry i).1 ≤ 255 ∧
    0 ≤ (colormapEntry i).2.1 ∧ (colormapEntry i).2.1 ≤ 255 ∧
    0 ≤ (colormapEntry i).2.2 ∧ (colormapEntry i).2.2 ≤ 255 := by
  have h255 : (i : ℚ) ≤ 255 := by exact_mod_cast Nat.le_of_lt_succ hi
  have h0 : (0 : ℚ) ≤ (i : ℚ) / 255 := by positivity
  have h1 : (i : ℚ) / 255 ≤ 1 := (div_le_one (by norm_num)).mpr h255
  obtain ⟨a, b, hseg, hat, htb, hcases⟩ := findSeg_mem _ h0 h1
  have hr : b.pos - a.pos ≠ 0 := by
    rcases hcases with h | h | h | h <;>
      (simp only [Prod.mk.injEq] at h; obtain ⟨rfl, rfl⟩ := h) <;>
      norm_num [kp0, kp1, kp2, kp3, kp4]
  rw [colormapEntry_eq_of_seg i a b hseg hr]
  rcases hcases with h | h | h | h <;>
    (simp only [Prod.mk.injEq] at h; obtain ⟨rfl, rfl⟩ := h) <;>
    simp only [kp0, kp1, kp2, kp3, kp4] at hat htb ⊢ <;>
    push_cast at hat htb ⊢ <;>
    refine ⟨(chan_mem_one _ _ _ _ _ hat htb ?_ ?_ ?_ ?_ ?_).1,
            (chan_mem_one _ _ _ _ _ hat htb ?_ ?_ ?_ ?_ ?_).2,
            (chan_mem_one _ _ _ _ _ hat htb ?_ ?_ ?_ ?_ ?_).1,
            (chan_mem_one _ _ _ _ _ hat htb ?_ ?_ ?_ ?_ ?_).2,
            (chan_mem_one _ _ _ _ _ hat htb ?_ ?_ ?_ ?_ ?_).1,
            (chan_mem_one _ _ _ _ _ hat htb ?_ ?_ ?_ ?_ ?_).2⟩ <;>
    norm_num

theorem jsRound_zero : jsRound 0 = 0 := by
  unfold jsRound
  rw [Int.floor_eq_iff]; norm_num

theorem jsRound_255 : jsRound 255 = 255 := by
  unfold jsRound
  rw [Int.floor_eq_iff]; norm_num

theorem colormapEntry_zero : colormapEntry 0 = (kp0.r, kp0.g, kp0.b) := by
  norm_num [colormapEntry, findSeg, keyPoints, kp0, kp1, kp2, kp3, kp4, jsRound_zero]

theorem colormapEntry_255 : colormapEntry 255 = (kp4.r, kp4.g, kp4.b) := by
  norm_num [colormapEntry, findSeg, keyPoints, kp0, kp1, kp2, kp3, kp4, jsRound_255]



/-- **C2.** The colormap generator returns exactly 256 RGB triples; entry `i`
equals the reference (spec) definition, with every channel in `[0, 255]`;
entry 0 is the first keyframe's color and entry 255 the last keyframe's. -/
theorem C2_colormap_table :
    generateBirdSongColormap.length = 256 ∧
    (∀ i : ℕ, i < 256 →
      generateBirdSongColormap[i]? = some (colormapEntry i) ∧
      colormapEntry i = specColormapEntry i ∧
      0 ≤ (colormapEntry i).1 ∧ (colormapEntry i).1 ≤ 255 ∧
      0 ≤ (colormapEntry i).2.1 ∧ (colormapEntry i).2.1 ≤ 255 ∧
      0 ≤ (colormapEntry i).2.2 ∧ (colormapEntry i).2.2 ≤ 255) ∧
    colormapEntry 0 = (kp0.r, kp0.g, kp0.b) ∧
    colormapEntry 255 = (kp4.r, kp4.g, kp4.b) := by
  refine ⟨by simp [generateBirdSongColormap], ?_, colormapEntry_zero, colormapEntry_255⟩
  intro i hi
  obtain ⟨m1, m2, m3, m4, m5, m6⟩ := colormapEntry_chan_mem i hi
  exact ⟨by simp [generateBirdSongColormap, List.getElem?_map, List.getElem?_range, hi],
    colormapEntry_eq_spec i hi, m1, m2, m3, m4, m5, m6⟩

/-- Witness for C2 at the concrete index 37. -/
theorem C2_colormap_table_witness :
    (37 : ℕ) < 256 ∧ colormapEntry 37 = specColormapEntry 37 :=
  ⟨by norm_num, (C2_colormap_table.2.1 37 (by norm_num)).2.1⟩




/-! ## Live waterfall renderer (`renderLive` in `src/unnamed/part_000`) -/

/-- A pixel color: an RGB triple (the canvas is opaque, alpha fixed). -/
abbrev Color := ℤ × ℤ × ℤ

/-- The background fill `#000000`. -/
def black : Color := (0, 0, 0)

/-- The canvas pixel surface: `buf x y` is the color of point `(x, y)`,
`x` growing rightward and `y` growing downward, as on a 2D canvas. -/
def Buffer : Type := ℚ → ℚ → Color

/-- `ctx.fillRect (x0, y0, rw, rh)` with color `c`: paint the half-open
rectangle `[x0, x0+rw) × [y0, y0+rh)`. -/
def fillRect (x0 y0 rw rh : ℚ) (c : Color) (buf : Buffer) : Buffer :=
  fun x y => if x0 ≤ x ∧ x < x0 + rw ∧ y0 ≤ y ∧ y < y0 + rh then c else buf x y

/-- The scroll step of `renderLive`:
`getImageData(1, 0, width-1, height)` followed by `putImageData(…, 0, 0)`,
which rewrites the region `[0, w-1) × [0, h)` with the content one pixel
to its right and leaves everything else untouched. -/
def putShiftedLeft (w h : ℚ) (buf : Buffer) : Buffer :=
  fun x y => if 0 ≤ x ∧ x < w - 1 ∧ 0 ≤ y ∧ y < h then buf (x + 1) y else buf x y

/-- `maxFreqIndex = Math.floor((FREQ_MAX / nyquist) * bufferLength)` with
`nyquist = sampleRate / 2` (from `renderLive`). -/
def liveMaxFreqIndex (sampleRate : ℚ) (binCount : ℕ) : ℕ :=
  (⌊((FREQ_MAX : ℚ) / (sampleRate / 2)) * (binCount : ℚ)⌋).toNat

/-- The vertical band that bin `i` paints in a column of height `h` when
the loop bound is `mfi`: the `for i` body fills from
`y - height` to `y` with `y = h - (i/mfi)*h` and `height = h/mfi + 1`.
`bandCovers h mfi i p` says vertical position `p` lies in that band. -/
def bandCovers (h : ℚ) (mfi i : ℕ) (p : ℚ) : Prop :=
  h - ((i : ℚ) / (mfi : ℚ)) * h - (h / (mfi : ℚ) + 1) ≤ p ∧ p < h - ((i : ℚ) / (mfi : ℚ)) * h

instance bandCoversDec (h : ℚ) (mfi i : ℕ) (p : ℚ) : Decidable (bandCovers h mfi i p) :=
  inferInstanceAs (Decidable (_ ∧ _))

/-- The bin-drawing loop of `renderLive`: `drawBins x h mfi mags cmap n buf`
runs the loop body for `i = 0, 1, …, n-1` (in that order, so later bins
paint over earlier ones), each iteration filling the 1-pixel-wide band of
bin `i` at column `x` with `cmap (mags i)` when `mags i > 0`. -/
def drawBins (x h : ℚ) (mfi : ℕ) (mags : ℕ → ℕ) (cmap : ℕ → Color) : ℕ → Buffer → Buffer
  | 0, buf => buf
  | n + 1, buf =>
    let buf' := drawBins x h mfi mags cmap n buf
    if 0 < mags n then
      fillRect x (h - ((n : ℚ) / (mfi : ℚ)) * h - (h / (mfi : ℚ) + 1)) 1 (h / (mfi : ℚ) + 1)
        (cmap (mags n)) buf'
    else buf'

/-- One tick of `renderLive` on a `w × h` canvas: scroll the buffer one
pixel left, clear the rightmost column to black, then draw every bin
`i < maxFreqIndex` of the current spectral frame `mags` through the
colormap `cmap`. -/
def renderLive (w h sampleRate : ℚ) (binCount : ℕ) (mags : ℕ → ℕ) (cmap : ℕ → Color)
    (buf : Buffer) : Buffer :=
  let shifted := putShiftedLeft w h buf
  let x := w - 1
  let cleared := fillRect x 0 1 h black shifted
  let mfi := liveMaxFreqIndex sampleRate binCount
  drawBins x h mfi mags cmap mfi cleared

/-- The x-independent value of the bin-drawing loop probed inside its own
column: starting color `c`, bins `0, …, n-1` applied in order. -/
def colFold (h : ℚ) (mfi : ℕ) (mags : ℕ → ℕ) (cmap : ℕ → Color) : ℕ → ℚ → Color → Color
  | 0, _, c => c
  | n + 1, p, c =>
    if 0 < mags n ∧ bandCovers h mfi n p then cmap (mags n) else colFold h mfi mags cmap n p c

/-- The new rightmost column as claim C1 words it: all bins `i` from `0`
to `maxFreqIndex` **inclusive**, painted over a background-black column. -/
def claimColumn (h : ℚ) (mfi : ℕ) (mags : ℕ → ℕ) (cmap : ℕ → Color) (p : ℚ) : Color :=
  colFold h mfi mags cmap (mfi + 1) p black

/-- Points strictly left of the painted column are never touched by the
bin-drawing loop. -/
theorem drawBins_left (x h : ℚ) (mfi : ℕ) (mags : ℕ → ℕ) (cmap : ℕ → Color)
    (n : ℕ) (buf : Buffer) (px py : ℚ) (hx : px < x) :
    drawBins x h mfi mags cmap n buf px py = buf px py := by
  induction n with
  | zero => rfl
  | succ n ih =>
    show drawBins x h mfi mags cmap (n + 1) buf px py = buf px py
    rw [drawBins]
    split
    · rw [fillRect]
      rw [if_neg (by rintro ⟨h1, -⟩; linarith)]
      exact ih
    · exact ih

/-- Probed at its own column `x`, the bin-drawing loop computes `colFold`. -/
theorem drawBins_at_x (x h : ℚ) (mfi : ℕ) (mags : ℕ → ℕ) (cmap : ℕ → Color)
    (n : ℕ) (buf : Buffer) (py : ℚ) :
    drawBins x h mfi mags cmap n buf x py = colFold h mfi mags cmap n py (buf x py) := by
  induction n with
  | zero => rfl
  | succ n ih =>
    rw [drawBins, colFold]
    split
    · rename_i hmag
      rw [fillRect]
      by_cases hc : bandCovers h mfi n py
      · rw [if_pos ⟨le_refl x, by linarith, by
          simpa using hc.1, by simpa [bandCovers] using hc.2⟩, if_pos ⟨hmag, hc⟩]
      · rw [if_neg, if_neg (by rintro ⟨-, hc'⟩; exact hc hc')]
        · exact ih
        · rintro ⟨-, -, h1, h2⟩
          exact hc ⟨by simpa using h1, by simpa [bandCovers] using h2⟩
    · rename_i hmag
      rw [if_neg (by rintro ⟨hm, -⟩; exact hmag hm)]
      exact ih

/-- If no positive-magnitude bin below `n` covers `p`, the column fold
returns the start color. -/
theorem colFold_untouched (h : ℚ) (mfi : ℕ) (mags : ℕ → ℕ) (cmap : ℕ → Color)
    (n : ℕ) (p : ℚ) (c : Color)
    (hnone : ∀ i, i < n → 0 < mags i → ¬ bandCovers h mfi i p) :
    colFold h mfi mags cmap n p c = c := by
  induction n with
  | zero => rfl
  | succ n ih =>
    rw [colFold, if_neg (by rintro ⟨hm, hc⟩; exact hnone n (Nat.lt_succ_self n) hm hc)]
    exact ih fun i hi => hnone i (Nat.lt_succ_of_lt hi)

/-- The band of bin `mfi` itself lies entirely above the canvas (its
vertical extent is `[-(h/mfi+1), 0)`), so at canvas positions `p ≥ 0` the
inclusive reading of the loop agrees with the exclusive one. -/
theorem colFold_top_bin (h : ℚ) (mfi : ℕ) (hmfi : 0 < mfi) (mags : ℕ → ℕ) (cmap : ℕ → Color)
    (p : ℚ) (hp : 0 ≤ p) (c : Color) :
    colFold h mfi mags cmap (mfi + 1) p c = colFold h mfi mags cmap mfi p c := by
  rw [colFold, if_neg]
  rintro ⟨-, -, hlt⟩
  have hne : ((mfi : ℚ)) ≠ 0 := Nat.cast_ne_zero.mpr hmfi.ne'
  rw [div_self hne, one_mul, sub_self] at hlt
  linarith

/-- **C1.** One live-waterfall tick performs exactly: (1) shift the buffer
content one pixel column left inside the canvas, discarding the leftmost
column; (2) clear the new rightmost column to background black and
(3) repaint it per bin through the colormap — the rightmost column equals
the claim's reference column (bins 0 through `maxFreqIndex`, band at
`y = height - (i/maxFreqIndex)·height`, thickness `height/maxFreqIndex + 1`,
painted iff the bin magnitude is positive), and any canvas point of the
new column covered by no positive-magnitude band stays background. -/
theorem C1_renderLive_tick (w h sampleRate : ℚ) (binCount : ℕ) (mags : ℕ → ℕ)
    (cmap : ℕ → Color) (buf : Buffer)
    (hmfi : 0 < liveMaxFreqIndex sampleRate binCount) :
    (∀ x y, 0 ≤ x → x < w - 1 → 0 ≤ y → y < h →
      renderLive w h sampleRate binCount mags cmap buf x y = buf (x + 1) y) ∧
    (∀ y, 0 ≤ y → y < h →
      renderLive w h sampleRate binCount mags cmap buf (w - 1) y =
        claimColumn h (liveMaxFreqIndex sampleRate binCount) mags cmap y) ∧
    (∀ y, 0 ≤ y → y < h →
      (∀ i, i ≤ liveMaxFreqIndex sampleRate binCount → 0 < mags i →
        ¬ bandCovers h (liveMaxFreqIndex sampleRate binCount) i y) →
      renderLive w h sampleRate binCount mags cmap buf (w - 1) y = black) := by
  have hclear : ∀ y, 0 ≤ y → y < h →
      fillRect (w - 1) 0 1 h black (putShiftedLeft w h buf) (w - 1) y = black := by
    intro y hy0 hyh
    rw [fillRect, if_pos ⟨le_refl _, by linarith, hy0, by linarith⟩]
  refine ⟨?_, ?_, ?_⟩
  · intro x y hx0 hxw hy0 hyh
    show drawBins (w - 1) h (liveMaxFreqIndex sampleRate binCount) mags cmap
      (liveMaxFreqIndex sampleRate binCount)
      (fillRect (w - 1) 0 1 h black (putShiftedLeft w h buf)) x y = buf (x + 1) y
    rw [drawBins_left _ _ _ _ _ _ _ _ _ hxw]
    rw [fillRect, if_neg (by rintro ⟨h1, -⟩; linarith)]
    rw [putShiftedLeft, if_pos ⟨hx0, hxw, hy0, hyh⟩]
  · intro y hy0 hyh
    show drawBins (w - 1) h (liveMaxFreqIndex sampleRate binCount) mags cmap
      (liveMaxFreqIndex sampleRate binCount)
      (fillRect (w - 1) 0 1 h black (putShiftedLeft w h buf)) (w - 1) y = _
    rw [drawBins_at_x, hclear y hy0 hyh, claimColumn,
      colFold_top_bin h _ hmfi mags cmap y hy0]
  · intro y hy0 hyh hnone
    show drawBins (w - 1) h (liveMaxFreqIndex sampleRate binCount) mags cmap
      (liveMaxFreqIndex sampleRate binCount)
      (fillRect (w - 1) 0 1 h black (putShiftedLeft w h buf)) (w - 1) y = black
    rw [drawBins_at_x, hclear y hy0 hyh,
      colFold_untouched _ _ _ _ _ _ _ fun i hi => hnone i hi.le]

/-- Witness for C1 on the concrete session canvas (1200 × 320, 48 kHz,
1024 bins): the shift, the column repaint and the silent-background case
all evaluated at concrete points. -/
theorem C1_renderLive_tick_witness :
    0 < liveMaxFreqIndex 48000 1024 ∧
    renderLive 1200 320 48000 1024 (fun _ => 0) (fun _ => black)
      (fun x _ => (x.num, 0, 0)) 5 7 = (6, 0, 0) := by
  have hmfi : 0 < liveMaxFreqIndex 48000 1024 := by
    have hv : ((FREQ_MAX : ℚ) / (48000 / 2)) * ((1024 : ℕ) : ℚ) = ((512 : ℤ) : ℚ) := by
      norm_num [FREQ_MAX]
    rw [liveMaxFreqIndex, hv, Int.floor_intCast]
    norm_num
  refine ⟨hmfi, ?_⟩
  rw [(C1_renderLive_tick 1200 320 48000 1024 (fun _ => 0) (fun _ => black)
      (fun x _ => (x.num, 0, 0)) hmfi).1 5 7 (by norm_num) (by norm_num)
      (by norm_num) (by norm_num)]
  norm_num

/-! ## Frequency-axis upper bound in the two render modes (C3) -/

/-- The spectrogram-plugin options passed by `initWaveSurfer`:
`frequencyMin: 0, frequencyMax: FREQ_MAX` — the configured maximum is
passed through unconditionally, with no reference to the sample rate. -/
structure SpectrogramOptions where
  frequencyMin : ℚ
  frequencyMax : ℚ
  height : ℕ
  labels : Bool
  splitChannels : Bool

/-- The static-renderer configuration built in `initWaveSurfer`. -/
def staticSpectrogramOptions : SpectrogramOptions :=
  ⟨0, (FREQ_MAX : ℚ), 320, false, false⟩

/-- Modelled from the spec (§3 Invariants, claim C3): the loop bound the
live renderer would use if the displayed upper bound were
`min(configuredMaxFrequency, nyquist)`. -/
def minBasedMaxFreqIndex (sampleRate : ℚ) (binCount : ℕ) : ℕ :=
  (⌊(min (FREQ_MAX : ℚ) (sampleRate / 2) / (sampleRate / 2)) * (binCount : ℚ)⌋).toNat

/-- **C3, counterexample.** At sample rate 16 kHz (nyquist 8 kHz, below the
configured 12 kHz maximum) the live renderer's bin-to-position scale uses
`maxFreqIndex = 1536`, not the `1024` that a `min(freqMax, nyquist)` axis
would give: the code divides `FREQ_MAX` by nyquist without clamping. -/
theorem C3_min_axis_counterexample :
    liveMaxFreqIndex 16000 1024 = 1536 ∧ minBasedMaxFreqIndex 16000 1024 = 1024 ∧
    liveMaxFreqIndex 16000 1024 ≠ minBasedMaxFreqIndex 16000 1024 := by
  have h1 : ((FREQ_MAX : ℚ) / (16000 / 2)) * ((1024 : ℕ) : ℚ) = ((1536 : ℤ) : ℚ) := by
    norm_num [FREQ_MAX]
  have h2 : (min (FREQ_MAX : ℚ) (16000 / 2) / (16000 / 2)) * ((1024 : ℕ) : ℚ) =
      ((1024 : ℤ) : ℚ) := by
    rw [show min (FREQ_MAX : ℚ) (16000 / 2) = 8000 by norm_num [FREQ_MAX]]
    norm_num
  refine ⟨?_, ?_, ?_⟩
  · rw [liveMaxFreqIndex, h1, Int.floor_intCast]; rfl
  · rw [minBasedMaxFreqIndex, h2, Int.floor_intCast]; rfl
  · rw [liveMaxFreqIndex, h1, Int.floor_intCast, minBasedMaxFreqIndex, h2, Int.floor_intCast]
    decide

/-- **C3, amended.** The static renderer passes the configured maximum
frequency through unchanged, and the live renderer divides it by nyquist
without clamping; the two agree with the `min(freqMax, nyquist)`-based
mapping exactly in the normal regime `nyquist ≥ FREQ_MAX` (sample rate at
least 24 kHz), where `min` collapses to the configured maximum. -/
theorem C3_axis_agreement (sampleRate : ℚ) (binCount : ℕ)
    (hs : (FREQ_MAX : ℚ) ≤ sampleRate / 2) :
    staticSpectrogramOptions.frequencyMax = (FREQ_MAX : ℚ) ∧
    liveMaxFreqIndex sampleRate binCount = minBasedMaxFreqIndex sampleRate binCount := by
  refine ⟨rfl, ?_⟩
  rw [liveMaxFreqIndex, minBasedMaxFreqIndex, min_eq_left hs]

/-- Witness for C3's amended statement at the session's 48 kHz rate. -/
theorem C3_axis_agreement_witness :
    (FREQ_MAX : ℚ) ≤ 48000 / 2 ∧
    liveMaxFreqIndex 48000 1024 = minBasedMaxFreqIndex 48000 1024 :=
  ⟨by norm_num [FREQ_MAX],
   (C3_axis_agreement 48000 1024 (by norm_num [FREQ_MAX])).2⟩

/-! ## The waterfall canvas across ticks (C6) -/

/-- The live waterfall canvas: the backing surface dimensions together
with its pixel content. -/
structure LiveCanvas where
  width : ℚ
  height : ℚ
  buf : Buffer

/-- The canvas as mounted by the component:
`<canvas … width={1200} height={320}>`, filled with black on setup. -/
def initialLiveCanvas : LiveCanvas :=
  ⟨1200, 320, fun _ _ => black⟩

/-- One animation tick: `renderLive` mutates pixel content in place and
never touches the canvas dimensions. -/
def liveTick (sampleRate : ℚ) (binCount : ℕ) (mags : ℕ → ℕ) (cmap : ℕ → Color)
    (c : LiveCanvas) : LiveCanvas :=
  ⟨c.width, c.height, renderLive c.width c.height sampleRate binCount mags cmap c.buf⟩

/-- `N` consecutive ticks, tick `n` consuming spectral frame `frames n`. -/
def runTicks (sampleRate : ℚ) (binCount : ℕ) (frames : ℕ → ℕ → ℕ) (cmap : ℕ → Color) :
    ℕ → LiveCanvas → LiveCanvas
  | 0, c => c
  | n + 1, c => liveTick sampleRate binCount (frames n) cmap
      (runTicks sampleRate binCount frames cmap n c)

/-- **C6.** The waterfall buffer's dimensions are invariant under any
number of ticks — the surface is never reallocated and never grows — and
each tick writes only through `renderLive` (scroll plus one new column),
so the session canvas stays 1200 × 320 forever. -/
theorem C6_buffer_never_grows (sampleRate : ℚ) (binCount : ℕ) (frames : ℕ → ℕ → ℕ)
    (cmap : ℕ → Color) (N : ℕ) (c : LiveCanvas) :
    (runTicks sampleRate binCount frames cmap N c).width = c.width ∧
    (runTicks sampleRate binCount frames cmap N c).height = c.height ∧
    (runTicks sampleRate binCount frames cmap N c).buf =
      Nat.rec c.buf
        (fun n buf => renderLive c.width c.height sampleRate binCount (frames n) cmap buf) N ∧
    (runTicks sampleRate binCount frames cmap N initialLiveCanvas).width = 1200 ∧
    (runTicks sampleRate binCount frames cmap N initialLiveCanvas).height = 320 := by
  have key : ∀ (d : LiveCanvas) (n : ℕ),
      (runTicks sampleRate binCount frames cmap n d).width = d.width ∧
      (runTicks sampleRate binCount frames cmap n d).height = d.height ∧
      (runTicks sampleRate binCount frames cmap n d).buf =
        Nat.rec d.buf
          (fun m buf => renderLive d.width d.height sampleRate binCount (frames m) cmap buf)
          n := by
    intro d n
    induction n with
    | zero => exact ⟨rfl, rfl, rfl⟩
    | succ n ih =>
      obtain ⟨hw, hh, hb⟩ := ih
      refine ⟨hw, hh, ?_⟩
      show renderLive (runTicks sampleRate binCount frames cmap n d).width
          (runTicks sampleRate binCount frames cmap n d).height sampleRate binCount
          (frames n) cmap (runTicks sampleRate binCount frames cmap n d).buf = _
      rw [hw, hh, hb]
  obtain ⟨h1, h2, h3⟩ := key c N
  obtain ⟨h4, h5, -⟩ := key initialLiveCanvas N
  exact ⟨h1, h2, h3, h4, h5⟩




/-! ## Calibration sweep controller (`runLiveCalibration`) -/

/-- The scheduling loop
`for (let freq = 10; freq <= FREQ_MAX; freq += 200) { …; stepCount++ }`,
returning the `(freq, stepCount)` pairs in loop order.  The first
argument is fuel strictly larger than the number of iterations
(`FREQ_MAX + 1` at the call site), so the recursion is structural while
the loop's own exit condition `freq ≤ FREQ_MAX` decides termination. -/
def rampSteps : ℕ → ℕ → ℕ → List (ℕ × ℕ)
  | 0, _, _ => []
  | fuel + 1, freq, k =>
    if freq ≤ FREQ_MAX then (freq, k) :: rampSteps fuel (freq + 200) (k + 1) else []

/-- The scheduled frequency ramp of one calibration sweep: frequencies
`10, 210, 410, …` with their step indices. -/
def calibRamp : List (ℕ × ℕ) := rampSteps (FREQ_MAX + 1) 10 0

/-- `stepCount` after the scheduling loop: the number of discrete
frequency steps scheduled on the oscillator. -/
def calibStepCount : ℕ := calibRamp.length

/-- The wall-clock progress interval of `runLiveCalibration`: each tick
does `currentStep++`, computes `currentFreq = 10 + currentStep * 200`,
stops (`clearInterval`) when `currentFreq > FREQ_MAX` and otherwise
displays it via `setCalibFreq`.  `displayTicks fuel step` lists the
values displayed from pre-increment counter value `step` on. -/
def displayTicks : ℕ → ℕ → List ℕ
  | 0, _ => []
  | fuel + 1, step =>
    if 10 + (step + 1) * 200 > FREQ_MAX then []
    else (10 + (step + 1) * 200) :: displayTicks fuel (step + 1)

/-- Every value `setCalibFreq` displays during one sweep, in order: the
initial `setCalibFreq(10)` followed by the interval ticks (the final
`setCalibFreq(0)` of the completion timeout belongs to the return to
idle, not to the running sweep). -/
def calibDisplaySeq : List ℕ := 10 :: displayTicks (FREQ_MAX + 1) 0

example : calibStepCount = 60 := by decide
example : calibDisplaySeq.length = 60 := by decide
example : calibDisplaySeq.getLast? = some 11810 := by decide

/-- The calibration controller state: `isCalibrating`, the displayed
`calibFreq`, and the ramp scheduled on the oscillator. -/
structure CalibState where
  active : Bool
  currentTargetFrequency : ℕ
  schedule : List (ℕ × ℕ)
deriving DecidableEq

/-- The idle state: not calibrating, display 0, nothing scheduled. -/
def idleCalibState : CalibState := ⟨false, 0, []⟩

/-- `runLiveCalibration`'s effect on the sweep state: the guard
`if (!ctx || isCalibrating || !analyzerRef.current) return;` leaves
everything unchanged, otherwise the sweep becomes active with the display
initialised to 10 and the full ramp scheduled. -/
def startSweep (ctxPresent analyzerPresent : Bool) (s : CalibState) : CalibState :=
  if ctxPresent = false ∨ s.active = true ∨ analyzerPresent = false then s
  else ⟨true, 10, calibRamp⟩

/-- The completion timeout: `setIsCalibrating(false)`, `setCalibFreq(0)`
and `clearInterval` — back to idle (the audio graph is not touched). -/
def finishSweep (s : CalibState) : CalibState := ⟨false, 0, s.schedule⟩

/-! ### Audio graph calls of one sweep (C8) -/

/-- The nodes of the calibration signal path and its sinks. -/
inductive AudioNode where
  | oscNode
  | gainStage
  | destNode
  | analyzerNode
deriving DecidableEq

/-- One Web Audio call issued by `runLiveCalibration`. -/
inductive AudioCall where
  | connect (src dst : AudioNode)
  | disconnect (src dst : AudioNode)
  | setFrequencyAt (freq : ℕ) (time : ℚ)
  | oscStart (time : ℚ)
  | oscStop (time : ℚ)

/-- All Web Audio calls `runLiveCalibration` issues over the sweep's
whole lifetime, in program order: `osc.connect(gain)`,
`gain.connect(ctx.destination)`, `gain.connect(analyzer)`, the
`setValueAtTime` ramp (step duration 0.05 s), `osc.start(startTime)` and
`osc.stop(endTime)`.  The completion timeout handler runs only
`setIsCalibrating(false)`, `setCalibFreq(0)` and `clearInterval` — it
contains no graph call, in particular no `disconnect`. -/
def calibrationAudioCalls (startTime : ℚ) : List AudioCall :=
  [.connect .oscNode .gainStage,
   .connect .gainStage .destNode,
   .connect .gainStage .analyzerNode]
  ++ calibRamp.map (fun p => .setFrequencyAt p.1 (startTime + (p.2 : ℚ) * (1 / 20)))
  ++ [.oscStart startTime,
      .oscStop (startTime + (calibStepCount : ℚ) * (1 / 20))]

/-- Whether a call is a `disconnect`. -/
def isDisconnect : AudioCall → Bool
  | .disconnect _ _ => true
  | _ => false

/-- Effect of one call on the set of graph edges. -/
def applyCall (edges : List (AudioNode × AudioNode)) : AudioCall → List (AudioNode × AudioNode)
  | .connect a b => edges ++ [(a, b)]
  | .disconnect a b => edges.filter (fun e => e ≠ (a, b))
  | _ => edges

/-- The connections still present after a sequence of calls. -/
def connectionsAfter (calls : List AudioCall) : List (AudioNode × AudioNode) :=
  calls.foldl applyCall []

/-- Scheduling calls are not disconnects. -/
theorem any_isDisconnect_setFreq (xs : List (ℕ × ℕ)) (t : ℚ) :
    (xs.map fun p => AudioCall.setFrequencyAt p.1 (t + (p.2 : ℚ) * (1 / 20))).any
      isDisconnect = false := by
  induction xs with
  | nil => rfl
  | cons p xs ih => simpa [isDisconnect] using ih

/-- `setValueAtTime` scheduling never changes the graph edges. -/
theorem foldl_applyCall_setFreq (edges : List (AudioNode × AudioNode))
    (xs : List (ℕ × ℕ)) (t : ℚ) :
    List.foldl applyCall edges
      (xs.map fun p => AudioCall.setFrequencyAt p.1 (t + (p.2 : ℚ) * (1 / 20))) = edges := by
  induction xs generalizing edges with
  | nil => rfl
  | cons p xs ih => exact ih edges

/-- **C4, counterexample.** The scheduling loop produces 60 steps
(frequencies 10, 210, …, 11810), not the 61 the claim's ceiling formula
`ceil((12000-10)/200) + 1` predicts: the loop stops at the last frequency
`≤ 12000`, which is a floor, not a ceiling. -/
theorem C4_step_count_counterexample :
    calibStepCount = 60 ∧
    (FREQ_MAX - 10 + 199) / 200 + 1 = 61 ∧
    calibStepCount ≠ (FREQ_MAX - 10 + 199) / 200 + 1 := by
  refine ⟨by decide, by decide, by decide⟩

/-- **C4, amended.** The number of scheduled frequency steps equals
`floor((12000 - 10) / 200) + 1 = 60`: one step per frequency
`10 + 200·k ≤ 12000`. -/
theorem C4_step_count :
    calibStepCount = (FREQ_MAX - 10) / 200 + 1 ∧ calibStepCount = 60 := by
  refine ⟨by decide, by decide⟩

/-- **C5, counterexample.** Every value the sweep ever displays as
`currentTargetFrequency` is below 11990 — the display peaks at 11810
(the interval stops as soon as `10 + step·200` would exceed 12000, and
11810 + 200 = 12010 > 12000), so the sweep returns to idle without the
display ever reaching 11990. -/
theorem C5_display_peak_counterexample :
    calibDisplaySeq.all (fun v => v < 11990) = true ∧
    calibDisplaySeq.getLast? = some 11810 := by
  refine ⟨by decide, by decide⟩

/-- **C5, amended.** During a sweep the displayed target frequency is
monotonically non-decreasing over time and reaches 11810 (its maximum,
which is below the claimed 11990) before the sweep returns to idle. -/
theorem C5_display_monotone :
    List.Sorted (· ≤ ·) calibDisplaySeq ∧
    calibDisplaySeq.getLast? = some 11810 ∧
    11810 ∈ calibDisplaySeq := by
  refine ⟨by decide, by decide, by decide⟩

/-- **C7.** The sweep state machine: a start request in the running state
is a no-op (the guard returns before touching any state), a start from
idle moves to running with the display at 10 Hz and the ramp scheduled,
and completion moves back to inactive with the display reset to 0. -/
theorem C7_sweep_state_machine :
    (∀ (ctxP anP : Bool) (s : CalibState), s.active = true →
      startSweep ctxP anP s = s) ∧
    startSweep true true idleCalibState = ⟨true, 10, calibRamp⟩ ∧
    finishSweep (startSweep true true idleCalibState) = ⟨false, 0, calibRamp⟩ := by
  refine ⟨?_, rfl, rfl⟩
  intro ctxP anP s hs
  rw [startSweep, if_pos (Or.inr (Or.inl hs))]

/-- Witness for C7: a running sweep (active, displaying 400 Hz) ignores a
new start request entirely. -/
theorem C7_sweep_state_machine_witness :
    (⟨true, 400, calibRamp⟩ : CalibState).active = true ∧
    startSweep true true ⟨true, 400, calibRamp⟩ = ⟨true, 400, calibRamp⟩ :=
  ⟨rfl, C7_sweep_state_machine.1 true true ⟨true, 400, calibRamp⟩ rfl⟩

/-- **C8, counterexample.** After the whole sweep — through and past the
completion timeout — the gain stage is still connected to both the
audible destination and the analyzer: `runLiveCalibration` never issues a
single `disconnect`, so the synthetic path is not "fully disconnected"
upon completion. -/
theorem C8_no_disconnect_counterexample :
    (AudioNode.gainStage, AudioNode.destNode) ∈ connectionsAfter (calibrationAudioCalls 0) ∧
    (AudioNode.gainStage, AudioNode.analyzerNode) ∈ connectionsAfter (calibrationAudioCalls 0) ∧
    (calibrationAudioCalls 0).any isDisconnect = false := by
  refine ⟨by decide, by decide, by decide⟩

/-- **C8, amended.** Upon completion the oscillator has been stopped
(`osc.stop(endTime)` is scheduled, and a stopped oscillator can never
produce signal again), but the synthetic path's nodes are never
disconnected: for every start time, the sweep issues no `disconnect` and
leaves all three `connect` edges — oscillator→gain, gain→destination,
gain→analyzer — in place. -/
theorem C8_teardown_keeps_connections (startTime : ℚ) :
    connectionsAfter (calibrationAudioCalls startTime) =
      [(AudioNode.oscNode, AudioNode.gainStage),
       (AudioNode.gainStage, AudioNode.destNode),
       (AudioNode.gainStage, AudioNode.analyzerNode)] ∧
    (calibrationAudioCalls startTime).any isDisconnect = false ∧
    AudioCall.oscStop (startTime + (calibStepCount : ℚ) * (1 / 20)) ∈
      calibrationAudioCalls startTime := by
  refine ⟨?_, ?_, ?_⟩
  · rw [connectionsAfter, calibrationAudioCalls]
    rw [List.foldl_append, List.foldl_append, foldl_applyCall_setFreq]
    rfl
  · rw [calibrationAudioCalls, List.any_append, List.any_append, any_isDisconnect_setFreq]
    rfl
  · rw [calibrationAudioCalls]
    simp [List.mem_append]




/-! ## Snapshot exporter (`takeSnapshot`) -/

/-- JavaScript's `a || b` on an optional string: `undefined` and the
empty string (both falsy) fall back to the default. -/
def jsStringOr (s : Option String) (dflt : String) : String :=
  match s with
  | none => dflt
  | some v => if v = "" then dflt else v

/-- `takeSnapshot`: choose the live canvas in microphone mode, otherwise
the spectrogram plugin's canvas; if the chosen surface is absent, return
silently producing nothing; otherwise produce exactly one PNG download of
that surface named `spectrogram-<track?.name || 'live'>-<Date.now()>.png`. -/
def takeSnapshot (micActive : Bool) (liveCanvas spectroCanvas : Option LiveCanvas)
    (trackName : Option String) (now : ℕ) : Option (String × LiveCanvas) :=
  match (if micActive then liveCanvas else spectroCanvas) with
  | none => none
  | some c =>
      some ("spectrogram-" ++ jsStringOr trackName ("live") ++ "-" ++ toString now
        ++ ".png", c)

/-- **C9.** A snapshot request with no surface attached is a silent
no-op (no file, and the embedding is a total function — no error);
with a surface attached it produces exactly one PNG of that surface,
named `spectrogram-<trackNameOrLive>-<unixTimestampMillis>.png`. -/
theorem C9_snapshot_behaviour (micActive : Bool)
    (liveCanvas spectroCanvas : Option LiveCanvas) (trackName : Option String) (now : ℕ) :
    ((if micActive then liveCanvas else spectroCanvas) = none →
      takeSnapshot micActive liveCanvas spectroCanvas trackName now = none) ∧
    (∀ c, (if micActive then liveCanvas else spectroCanvas) = some c →
      takeSnapshot micActive liveCanvas spectroCanvas trackName now =
        some ("spectrogram-" ++ jsStringOr trackName ("live") ++ "-" ++ toString now
          ++ ".png", c)) := by
  constructor
  · intro hnone
    rw [takeSnapshot, hnone]
  · intro c hsome
    rw [takeSnapshot, hsome]

/-- Witness for C9: no track and no microphone yields nothing; a live
snapshot of the session canvas yields the single expected file. -/
theorem C9_snapshot_behaviour_witness :
    takeSnapshot false none none none 173 = none ∧
    takeSnapshot true (some initialLiveCanvas) none none 173 =
      some ("spectrogram-live-173.png", initialLiveCanvas) :=
  ⟨(C9_snapshot_behaviour false none none none 173).1 rfl,
   ((C9_snapshot_behaviour true (some initialLiveCanvas) none none 173).2
      initialLiveCanvas rfl).trans (by rfl)⟩




/-! ## Local file scanner (`processLocalFiles` in `src/services/localService.ts`) -/

/-- One entry of the `FileList` handed to `processLocalFiles`: the
fields the scanner reads (`name`, `type`, `size`,
`webkitRelativePath` — possibly empty when absent). -/
structure JSFile where
  name : String
  mimeType : String
  size : ℕ
  webkitRelativePath : String
deriving DecidableEq

/-- JavaScript's `String.prototype.toLowerCase`, character by
character (the filenames involved are plain ASCII-cased names). -/
def jsToLower (s : String) : String :=
  ⟨s.data.map Char.toLower⟩

/-- JavaScript's `String.prototype.endsWith`: suffix test on the
character sequence. -/
def jsEndsWith (s sfx : String) : Bool :=
  sfx.data.isSuffixOf s.data

/-- The scanner's filter:
`file.name.toLowerCase().endsWith('.mp3') || file.type === 'audio/mpeg'`. -/
def isMp3 (f : JSFile) : Bool :=
  jsEndsWith (jsToLower f.name) (".mp3") || f.mimeType == "audio/mpeg"

/-- The `AudioFile` record built for an accepted file (`src/types.ts`);
the `id` field is a random UUID and is not modelled. -/
structure AudioFile where
  name : String
  size : String
  mimeType : String
  relativePath : String
deriving DecidableEq

/-- The record pushed by `processLocalFiles`: `name`, `size.toString()`,
`type || 'audio/mpeg'`, `webkitRelativePath || file.name`. -/
def toAudioFile (f : JSFile) : AudioFile :=
  ⟨f.name, toString f.size,
   if f.mimeType = "" then "audio/mpeg" else f.mimeType,
   if f.webkitRelativePath = "" then f.name else f.webkitRelativePath⟩

/-- `processLocalFiles`: keep the MP3 files in input order, convert each,
then `sort((a, b) => a.name.localeCompare(b.name))` — an ascending stable
sort by name, embedded as a stable merge sort under the lexicographic
order on strings. -/
def processLocalFiles (fileList : List JSFile) : List AudioFile :=
  ((fileList.filter isMp3).map toAudioFile).mergeSort (fun a b => a.name ≤ b.name)

/-- **C10.** `processLocalFiles` returns exactly the files accepted by
the MP3 filter (name ending in `.mp3` case-insensitively, or MIME type
`audio/mpeg`), each preserving the source file's name and size, sorted
ascending by name; files matching neither condition never appear. -/
theorem C10_processLocalFiles_filter_sort (fileList : List JSFile) :
    List.Sorted (fun a b : AudioFile => a.name ≤ b.name) (processLocalFiles fileList) ∧
    (processLocalFiles fileList).Perm ((fileList.filter isMp3).map toAudioFile) ∧
    (∀ a, a ∈ processLocalFiles fileList ↔
      ∃ f, f ∈ fileList ∧ isMp3 f = true ∧ a = toAudioFile f) ∧
    (∀ f, f ∈ fileList → isMp3 f = true →
      (toAudioFile f).name = f.name ∧ (toAudioFile f).size = toString f.size ∧
        toAudioFile f ∈ processLocalFiles fileList) := by
  have hperm : (processLocalFiles fileList).Perm ((fileList.filter isMp3).map toAudioFile) :=
    List.mergeSort_perm _ _
  have hsorted : List.Sorted (fun a b : AudioFile => a.name ≤ b.name)
      (processLocalFiles fileList) := by
    have := @List.sorted_mergeSort AudioFile
      (fun a b => decide (a.name ≤ b.name))
      (fun a b c h1 h2 => by
        simp only [decide_eq_true_eq] at h1 h2 ⊢
        exact le_trans h1 h2)
      (fun a b => by
        simp only [Bool.or_eq_true, decide_eq_true_eq]
        exact le_total a.name b.name)
      ((fileList.filter isMp3).map toAudioFile)
    refine List.Pairwise.imp ?_ this
    intro a b h
    simpa using h
  have hmem : ∀ a, a ∈ processLocalFiles fileList ↔
      ∃ f, f ∈ fileList ∧ isMp3 f = true ∧ a = toAudioFile f := by
    intro a
    rw [hperm.mem_iff, List.mem_map]
    constructor
    · rintro ⟨f, hf, rfl⟩
      rw [List.mem_filter] at hf
      exact ⟨f, hf.1, hf.2, rfl⟩
    · rintro ⟨f, hf, hmp3, rfl⟩
      exact ⟨f, List.mem_filter.mpr ⟨hf, hmp3⟩, rfl⟩
  refine ⟨hsorted, hperm, hmem, ?_⟩
  intro f hf hmp3
  exact ⟨rfl, rfl, (hmem (toAudioFile f)).mpr ⟨f, hf, hmp3, rfl⟩⟩




/-- Witness for C10 on a concrete folder: an upper-case `.MP3` file is
accepted with its name and size preserved and lands in the result; the
theorem is applied at that file. -/
theorem C10_processLocalFiles_filter_sort_witness :
    isMp3 ⟨"Bird.MP3", "", 42, ""⟩ = true ∧
    (toAudioFile ⟨"Bird.MP3", "", 42, ""⟩).name = "Bird.MP3" ∧
    (toAudioFile ⟨"Bird.MP3", "", 42, ""⟩).size = "42" ∧
    toAudioFile ⟨"Bird.MP3", "", 42, ""⟩ ∈
      processLocalFiles [⟨"Bird.MP3", "", 42, ""⟩, ⟨"notes.txt", "text/plain", 7, ""⟩] := by
  refine ⟨by decide, by decide, by decide, ?_⟩
  exact ((C10_processLocalFiles_filter_sort
    [⟨"Bird.MP3", "", 42, ""⟩, ⟨"notes.txt", "text/plain", 7, ""⟩]).2.2.2
    ⟨"Bird.MP3", "", 42, ""⟩ (by decide) (by decide)).2.2


end Symphony
